import Mathlib

/-!
Shallow embedding of the Smart Buy Assistant browser extension
(src/easy-shop/content.js and src/easy-shop/popup.js).

The DOM reads of the content script may raise exceptions at runtime, so every
DOM text read is modelled as an `Except String (Option String)`:
`Except.error` is a thrown DOM exception, `Except.ok none` is a selector
that matched no element (`querySelector` returning `null`), and
`Except.ok (some s)` is the text found.  Pure property accesses that
cannot throw (`src`, `content`, `document.title`, `location.href`) are
modelled as plain `Option String` / `String` fields.
-/

/-- JS string-algorithm helpers, modelled character by character. -/
def jsWhitespace (c : Char) : Bool :=
  c == ' ' || c == '\t' || c == '\n' || c == '\r'

/-- Model of `String.prototype.trim`: drop edge whitespace. -/
def jsTrim (s : String) : String :=
  String.mk (((s.data.dropWhile jsWhitespace).reverse.dropWhile jsWhitespace).reverse)

/-- substring search on char lists: does `needle` occur inside the list? -/
def containsSub (needle : List Char) : List Char → Bool
  | [] => needle.isEmpty
  | c :: cs => needle.isPrefixOf (c :: cs) || containsSub needle cs

/-- Model of `String.prototype.includes(needle)` on `hay`. -/
def jsIncludes (hay needle : String) : Bool :=
  containsSub needle.data hay.data

/-- JS `a || b` on strings: `a` when truthy (non-empty), else `b`. -/
def jsOr (a b : String) : String :=
  if a == "" then b else a

/-- Model of an `innerText` read with trim, defaulting to the empty
string, applied to an optional DOM text. -/
def innerTextOrEmpty (r : Option String) : String :=
  match r with
  | some s => jsTrim s
  | none => ""

/-- Model of a `src`-style attribute read: an absent property
contributes the empty string. -/
def optD (r : Option String) : String :=
  match r with
  | some s => s
  | none => ""

/-- JS falsiness of a nullable string (`!token`): null/undefined or empty. -/
def jsStrFalsy : Option String → Bool
  | none => true
  | some s => s == ""

/-- Worker for `replace(/[^0-9.]/g, ...)` with the empty replacement,
scanned left to right over the chars (content.js line 56). -/
def filterPriceChars : List Char → List Char
  | [] => []
  | c :: cs => if c.isDigit || c == '.' then c :: filterPriceChars cs else filterPriceChars cs

/-- Price normalization from content.js line 56:
strip every char that is not a digit and not a period. -/
def replaceNonPriceChars (s : String) : String :=
  String.mk (filterPriceChars s.data)

/-- Worker for the digits-only replace (Amazon price fraction cleanup,
content.js line 33). -/
def filterDigitChars : List Char → List Char
  | [] => []
  | c :: cs => if c.isDigit then c :: filterDigitChars cs else filterDigitChars cs

/-- Digits-only cleanup of the Amazon price fraction fragment. -/
def filterDigits (s : String) : String :=
  String.mk (filterDigitChars s.data)

/-- Does `/ - .*$/` match at this position: `" - "` followed by a
newline-free tail (JS `.` does not cross newlines, `$` is end of input)? -/
def dashMatchHere : List Char → Bool
  | ' ' :: '-' :: ' ' :: rest => rest.all (fun c => c != '\n')
  | _ => false

/-- Char-list worker for the trailing-dash-suffix replace. -/
def stripDashTailAux : List Char → List Char
  | [] => []
  | c :: cs => if dashMatchHere (c :: cs) then [] else c :: stripDashTailAux cs

/-- Model of the `document.title` replace of `/ - .*$/` by the empty
string (content.js line 50). -/
def stripDashTail (s : String) : String :=
  String.mk (stripDashTailAux s.data)

/-- Character class `[\d,]` of the price regex. -/
def isPriceChar (c : Char) : Bool :=
  c.isDigit || c == ','

/-- Try to match the regex `\$[\d,]+\.?\d{0,2}` at the head of the list,
returning the (greedy) matched chars (content.js line 84). -/
def matchAt (l : List Char) : Option (List Char) :=
  match l with
  | [] => none
  | c :: rest =>
    if c == '$' then
      if rest.takeWhile isPriceChar = [] then none
      else
        match rest.dropWhile isPriceChar with
        | c2 :: rest2 =>
          if c2 == '.' then
            some ('$' :: (rest.takeWhile isPriceChar ++
              '.' :: ((rest2.takeWhile Char.isDigit).take 2)))
          else some ('$' :: rest.takeWhile isPriceChar)
        | [] => some ('$' :: rest.takeWhile isPriceChar)
    else none

/-- Leftmost match of `\$[\d,]+\.?\d{0,2}` anywhere in the list
(JS `String.prototype.match` without the `g` flag). -/
def scanCurrency : List Char → Option (List Char)
  | [] => none
  | c :: cs =>
    match matchAt (c :: cs) with
    | some m => some m
    | none => scanCurrency cs

/-- Model of the `textContent` regex match of one text node, as the
matched substring when there is one. -/
def matchCurrency (s : String) : Option String :=
  (scanCurrency s.data).map String.mk

/-- Model of `findPrice` (content.js lines 75-88): walk the text nodes in
document order; return the regex match of the first matching node, or
the empty string when no node matches. -/
def findPrice (nodes : List String) : String :=
  match nodes with
  | [] => ""
  | n :: rest =>
    match matchCurrency n with
    | some m => m
    | none => findPrice rest

/-- The extracted product record (content.js lines 60-65). -/
structure ProductRecord where
  title : String
  price : String
  image : String
  url : String
deriving DecidableEq

/-- Snapshot of the DOM state that `extractProduct` reads.  Text reads of
the form `querySelector(sel)?.innerText.trim()` can throw and are
`Except`; attribute reads (`src`, `content`) cannot and are `Option`. -/
structure Page where
  url : String
  docTitle : String
  readProductTitle : Except String (Option String)
  readPriceWhole : Except String (Option String)
  readPriceFraction : Except String (Option String)
  landingImageSrc : Option String
  imgTagWrapperImgSrc : Option String
  readEbayTitleAlt : Except String (Option String)
  readH1 : Except String (Option String)
  readEbayPrice : Except String (Option String)
  sItemImageSrc : Option String
  readWalmartPrice : Except String (Option String)
  walmartImageSrc : Option String
  readGenericTitle : Except String (Option String)
  ogImageContent : Option String
  readTextNodes : Except String (List String)

/-- The four host-dispatched branches of `extractProduct` (content.js
lines 28-53), producing the raw `(title, price, image)` triple. -/
def extractBranches (p : Page) : Except String (String × String × String) :=
  if jsIncludes p.url ("amazon.com") then
    (p.readProductTitle).bind (fun tRaw =>
      (p.readPriceWhole).bind (fun wRaw =>
        (p.readPriceFraction).bind (fun fRaw =>
          let title := innerTextOrEmpty tRaw
          let whole := innerTextOrEmpty wRaw
          let fraction := innerTextOrEmpty fRaw
          let price :=
            if whole != "" || fraction != "" then
              whole ++ (if fraction != "" then "." ++ filterDigits fraction else "")
            else ""
          let image := jsOr (optD p.landingImageSrc) (jsOr (optD p.imgTagWrapperImgSrc) "")
          Except.ok (title, price, image))))
  else if jsIncludes p.url ("ebay.com") then
    (p.readEbayTitleAlt).bind (fun t1Raw =>
      let t1 := innerTextOrEmpty t1Raw
      (if t1 == "" then
        (p.readH1).map (fun t2Raw => jsOr (innerTextOrEmpty t2Raw) "")
      else Except.ok t1).bind (fun title =>
        (p.readEbayPrice).bind (fun prRaw =>
          let price := innerTextOrEmpty prRaw
          let image := jsOr (optD p.sItemImageSrc) ""
          Except.ok (title, price, image))))
  else if jsIncludes p.url ("walmart.com") then
    (p.readH1).bind (fun tRaw =>
      (p.readWalmartPrice).bind (fun prRaw =>
        let title := innerTextOrEmpty tRaw
        let price := innerTextOrEmpty prRaw
        let image := jsOr (optD p.walmartImageSrc) ""
        Except.ok (title, price, image)))
  else
    (p.readGenericTitle).bind (fun tRaw =>
      let t1 := innerTextOrEmpty tRaw
      let title := if t1 == "" then stripDashTail p.docTitle else t1
      (p.readTextNodes).bind (fun nodes =>
        let price := findPrice nodes
        let image := jsOr (optD p.ogImageContent) ""
        Except.ok (title, price, image)))

/-- Shared tail of `extractProduct` (content.js lines 55-65): normalize
the price, return `null` unless both title and price are non-empty. -/
def finalizeProduct (title priceRaw image url : String) : Option ProductRecord :=
  let price := replaceNonPriceChars priceRaw
  if title == "" || price == "" then none
  else some { title := title, price := price, image := image, url := url }

/-- Body of the `try` block of `extractProduct` (content.js lines 22-65). -/
def extractProductBody (p : Page) : Except String (Option ProductRecord) :=
  (extractBranches p).map (fun tpi => finalizeProduct tpi.1 tpi.2.1 tpi.2.2 p.url)

/-- Model of `extractProduct` (content.js lines 21-70): the surrounding
`try/catch` converts any thrown DOM exception into `null`. -/
def extractProduct (p : Page) : Option ProductRecord :=
  match extractProductBody p with
  | Except.ok r => r
  | Except.error _ => none

/-- One `parts` element of a Gemini candidate (`{text: string}`). -/
structure GeminiPart where
  text : Option String
deriving DecidableEq

/-- The `content` of a Gemini candidate. -/
structure GeminiContent where
  parts : List GeminiPart
deriving DecidableEq

/-- One generation candidate. -/
structure GeminiCandidate where
  content : Option GeminiContent
deriving DecidableEq

/-- Parsed JSON body of a generation-endpoint response. -/
structure GeminiData where
  candidates : Option (List GeminiCandidate)
deriving DecidableEq

/-- The optional chain from a candidate list to its first text. -/
def candidatesText (cs : List GeminiCandidate) : Option String :=
  match cs.head? with
  | none => none
  | some c =>
    match c.content with
    | none => none
    | some ct =>
      match ct.parts.head? with
      | none => none
      | some prt => prt.text

/-- The full optional chain from the parsed response body to the first
candidate text (content.js line 159). -/
def extractCandidateText (d : GeminiData) : Option String :=
  match d.candidates with
  | none => none
  | some cs => candidatesText cs

/-- Generation configuration sent with the request (content.js
lines 141-144); the temperature is kept as its JSON literal text. -/
structure GenerationConfig where
  maxOutputTokens : Nat
  temperature : String
deriving DecidableEq

/-- A POST issued by the background worker to the generation endpoint. -/
structure FetchRequest where
  url : String
  authToken : String
  promptText : String
  config : GenerationConfig
deriving DecidableEq

/-- An HTTP response: status, raw body text, and parsed JSON body. -/
structure FetchResponse where
  status : Nat
  bodyText : String
  json : GeminiData

/-- Model of `Response.ok`: status in the 2xx range. -/
def respOk (r : FetchResponse) : Bool :=
  decide (200 ≤ r.status) && decide (r.status < 300)

/-- The generation endpoint URL (content.js line 137). -/
def geminiEndpoint : String :=
  "https://generativelanguage.googleapis.com/v1beta/models/gemini-1.5-flash-latest:generateContent"

/-- The AuthRequired failure message (content.js line 133). -/
def authRequiredMessage : String :=
  "Not signed in. Please sign in with Google to enable AI suggestions."

/-- The MalformedResponse failure message (content.js line 160). -/
def malformedResponseMessage : String :=
  "Unexpected API response format"

/-- The NetworkError failure message for a non-2xx response
(content.js line 155): `API error STATUS: BODY`. -/
def networkErrorMessage (status : Nat) (body : String) : String :=
  "API error " ++ toString status ++ ": " ++ body

/-- The prompt built from the product (content.js line 135). -/
def buildPrompt (product : ProductRecord) : String :=
  "Analyze this product: \"" ++ product.title ++ "\" priced at $" ++ product.price ++
    " from " ++ product.url ++
    ".\n\nProvide 3-5 actionable shopping suggestions:\n- Better or cheaper alternatives\n- Where to buy (specific stores/sites)\n- Estimated prices\n- Why each alternative is better\n\nKeep suggestions concise, helpful, and unbiased. Format as a numbered list."

/-- The POST request `handleAnalyze` issues (content.js lines 137-151). -/
def mkGeminiRequest (tok : String) (product : ProductRecord) : FetchRequest :=
  { url := geminiEndpoint
    authToken := tok
    promptText := buildPrompt product
    config := { maxOutputTokens := 500, temperature := "0.7" } }

/-- Model of `getTokenSilent` (content.js lines 164-171): non-interactive token
lookup; a runtime error or a falsy token resolves to `null`. -/
def getTokenSilent (lastError : Bool) (token : Option String) : Option String :=
  if lastError then none
  else
    match token with
    | none => none
    | some t => if t == "" then none else some t

/-- Model of `handleAnalyze` (content.js lines 130-162), with the network modelled
as a function from the request to a response.  Returns the JS result
(`Except.error` = thrown `Error` message) together with the list of
network requests actually issued, in order. -/
def handleAnalyze (token : Option String) (product : ProductRecord)
    (net : FetchRequest → FetchResponse) : Except String String × List FetchRequest :=
  if jsStrFalsy token then
    (Except.error authRequiredMessage, [])
  else
    let tok := optD token
    let req := mkGeminiRequest tok product
    let resp := net req
    if !(respOk resp) then
      (Except.error (networkErrorMessage resp.status resp.bodyText), [req])
    else
      match extractCandidateText resp.json with
      | none => (Except.error malformedResponseMessage, [req])
      | some t =>
        if t == "" then (Except.error malformedResponseMessage, [req])
        else (Except.ok (jsTrim t), [req])

/-- Response parsing of `callGeminiAPI` (popup.js lines 516-521):
`!data.candidates || !data.candidates[0]?.content?.parts[0]?.text`
rejects, otherwise the trimmed text is returned. -/
def callGeminiAPIParse (d : GeminiData) : Except String String :=
  match d.candidates with
  | none => Except.error ("Unexpected API response—try a fresh key.")
  | some cs =>
    match candidatesText cs with
    | none => Except.error ("Unexpected API response—try a fresh key.")
    | some t =>
      if t == "" then Except.error ("Unexpected API response—try a fresh key.")
      else Except.ok (jsTrim t)

/-- A history entry: the product record spread together with a
timestamp (popup.js line 178). -/
structure HistoryEntry extends ProductRecord where
  timestamp : Nat
deriving DecidableEq

/-- Model of `Array.prototype.unshift`: insert at the front. -/
def jsUnshift (x : α) (l : List α) : List α := x :: l

/-- Model of `Array.prototype.splice(n)`: delete from index `n` on,
keeping the first `n` elements. -/
def jsSpliceKeep (n : Nat) (l : List α) : List α := l.take n

/-- History update of one analyze run with tracking enabled
(popup.js lines 177-181 and 457-461): `unshift` then `splice(50)`. -/
def updateHistory (entry : HistoryEntry) (hist : List HistoryEntry) : List HistoryEntry :=
  jsSpliceKeep 50 (jsUnshift entry hist)

/-- The history after a sequence of analyze runs with tracking enabled,
oldest run first. -/
def runHistory (entries : List HistoryEntry) (hist : List HistoryEntry) : List HistoryEntry :=
  entries.foldl (fun h e => updateHistory e h) hist

/-- JS `text.split('\n')`, keeping empty segments. -/
def splitNewlineAux : List Char → List Char → List String
  | [], acc => [String.mk acc.reverse]
  | c :: cs, acc =>
    if c == '\n' then String.mk acc.reverse :: splitNewlineAux cs []
    else splitNewlineAux cs (c :: acc)

/-- Model of the split of a string at each newline character. -/
def jsSplitNewline (s : String) : List String :=
  splitNewlineAux s.data []

/-- State of `/^\d+\./` after the first digit: more digits then a period. -/
def digitsThenDot : List Char → Bool
  | [] => false
  | c :: cs => if c == '.' then true else if c.isDigit then digitsThenDot cs else false

/-- Test of `/^\d+\./`: one or more digits followed by a period. -/
def startsNumDot (s : String) : Bool :=
  match s.data with
  | [] => false
  | c :: cs => c.isDigit && digitsThenDot cs

/-- Test of `/^[-•*]/`: starts with a bullet glyph. -/
def startsBullet (s : String) : Bool :=
  match s.data with
  | [] => false
  | c :: _ => c == '-' || c == '•' || c == '*'

/-- The inclusion heuristic of `renderSuggestions` (popup.js line 300). -/
def suggestionKeep (line : String) : Bool :=
  startsNumDot (jsTrim line) || startsBullet (jsTrim line) || decide (line.length > 10)

/-- Segmentation step of `renderSuggestions` (popup.js lines 296-301):
split on newlines, drop blank lines, keep list-item-looking or long
lines. -/
def renderSuggestions (text : String) : List String :=
  ((jsSplitNewline text).filter (fun line => jsTrim line != "")).filter suggestionKeep

/-- Modelled from the description in the spec of the same filter: a line is
kept when it is non-blank and looks like a list item (leading
digit+period or bullet glyph) or is longer than 10 characters. -/
def suggestionKeepSpec (line : String) : Bool :=
  (jsTrim line != "") &&
    (startsNumDot (jsTrim line) || startsBullet (jsTrim line) || decide (line.length > 10))

/-- What the popup renders after `analyzeProduct` fails. -/
inductive RenderOutcome where
  | fallback (product : ProductRecord) (suggestions : String)
  | errorMsg (message : String)
deriving DecidableEq

/-- Is the outcome the demo fallback rendering? -/
def isFallback : RenderOutcome → Bool
  | RenderOutcome.fallback _ _ => true
  | RenderOutcome.errorMsg _ => false

/-- The synthetic demo product rendered on fallback (popup.js
lines 199-204). -/
def demoProduct (currentUrl : String) : ProductRecord :=
  { title := "Demo Product (API Error)", price := "29.99", image := "", url := currentUrl }

/-- Model of `getDemoSuggestions` (popup.js lines 339-345). -/
def getDemoSuggestions : String :=
  "1. Check eBay for similar items - Often 20-30% cheaper\n2. Wait for Amazon Prime Day - Significant discounts expected\n3. Compare at Walmart.com - Price match guarantee available\n4. Consider refurbished options - Save 40% with warranty\n5. Check CamelCamelCamel for price history - Buy at optimal time"

/-- The `catch` block of `analyzeProduct` (popup.js lines 193-212):
messages mentioning the API key or an API error degrade to the demo
fallback; every other failure is shown as an error message. -/
def analyzeProductCatch (errMessage currentUrl : String) : RenderOutcome :=
  if jsIncludes errMessage ("API key") || jsIncludes errMessage ("API error") then
    RenderOutcome.fallback (demoProduct currentUrl) getDemoSuggestions
  else RenderOutcome.errorMsg ("Analysis failed: " ++ errMessage)

lemma strData_append (s t : String) : (s ++ t).data = s.data ++ t.data := by
  cases s; cases t; rfl

lemma filterPriceChars_eq_filter (l : List Char) :
    filterPriceChars l = l.filter (fun c => c.isDigit || c == '.') := by
  induction l with
  | nil => rfl
  | cons c cs ih =>
    cases h : (c.isDigit || c == '.') <;>
      simp [filterPriceChars, List.filter_cons, h, ih]

lemma finalizeProduct_valid (t pr im u : String) (r : ProductRecord)
    (h : finalizeProduct t pr im u = some r) :
    r.title ≠ "" ∧ r.price ≠ "" ∧ ∀ c ∈ r.price.data, c.isDigit = true ∨ c = '.' := by
  cases hc : (t == "" || replaceNonPriceChars pr == "") with
  | true => simp [finalizeProduct, hc] at h
  | false =>
    simp only [finalizeProduct, hc, Bool.false_eq_true, if_false] at h
    obtain ⟨h1, h2⟩ := Bool.or_eq_false_iff.mp hc
    obtain rfl := (Option.some_injective _ h).symm
    refine ⟨by simpa using h1, by simpa using h2, ?_⟩
    intro c hm
    simp only [replaceNonPriceChars, filterPriceChars_eq_filter] at hm
    have := List.of_mem_filter hm
    rcases Bool.or_eq_true_iff.mp this with hd | hp
    · exact Or.inl hd
    · exact Or.inr (by simpa using hp)

/-- C1: `extractProduct` yields a record only when both the title and
the normalized price are non-empty; any page on which either is empty
(or any faulting page) yields `null`, never a partially filled record,
and the price of a returned record consists of digits and periods only. -/
theorem extractProduct_requires_title_price (p : Page) (r : ProductRecord)
    (h : extractProduct p = some r) :
    r.title ≠ "" ∧ r.price ≠ "" ∧ ∀ c ∈ r.price.data, c.isDigit = true ∨ c = '.' := by
  unfold extractProduct extractProductBody at h
  cases hbr : extractBranches p with
  | error e => rw [hbr] at h; simp [Except.map] at h
  | ok tpi =>
    rw [hbr] at h
    simp only [Except.map] at h
    exact finalizeProduct_valid _ _ _ _ _ h

/-- A concrete Amazon-branch page on which extraction succeeds. -/
def amazonPage : Page :=
  { url := "https://www.amazon.com/dp/B01"
    docTitle := ""
    readProductTitle := Except.ok (some (" Widget "))
    readPriceWhole := Except.ok (some ("19"))
    readPriceFraction := Except.ok (some ("99"))
    landingImageSrc := none
    imgTagWrapperImgSrc := none
    readEbayTitleAlt := Except.ok none
    readH1 := Except.ok none
    readEbayPrice := Except.ok none
    sItemImageSrc := none
    readWalmartPrice := Except.ok none
    walmartImageSrc := none
    readGenericTitle := Except.ok none
    ogImageContent := none
    readTextNodes := Except.ok [] }

/-- The record `extractProduct` returns on `amazonPage`. -/
def amazonRecord : ProductRecord :=
  { title := "Widget", price := "19.99", image := "", url := "https://www.amazon.com/dp/B01" }

/-- Witness for C1 at a concrete successful extraction. -/
theorem extractProduct_requires_title_price_witness :
    amazonRecord.title ≠ "" ∧ amazonRecord.price ≠ "" :=
  ⟨(extractProduct_requires_title_price amazonPage amazonRecord (by decide)).1,
   (extractProduct_requires_title_price amazonPage amazonRecord (by decide)).2.1⟩

/-- C2: price normalization removes every character that is neither a
digit nor a period (it keeps, in order, exactly the digit/period
characters of the input), and `$1,234.56` normalizes to `1234.56`. -/
theorem replaceNonPriceChars_spec :
    (∀ s : String, (replaceNonPriceChars s).data =
      s.data.filter (fun c => c.isDigit || c == '.')) ∧
    replaceNonPriceChars ("$1,234.56") = "1234.56" := by
  constructor
  · intro s
    simp [replaceNonPriceChars, filterPriceChars_eq_filter]
  · rfl

/-- C8: the `try/catch` of `extractProduct` converts every exception
raised by a DOM access inside the body into a `null` result; by the
type of `extractProduct` the only outcomes are a record or absence. -/
theorem extractProduct_catches_dom_errors (p : Page) (e : String)
    (h : extractProductBody p = Except.error e) : extractProduct p = none := by
  unfold extractProduct
  rw [h]

/-- A page whose title read throws, on the Amazon branch. -/
def faultyPage : Page :=
  { amazonPage with readProductTitle := Except.error ("TypeError: cannot read innerText") }

/-- Witness for C8 at a concrete faulting page. -/
theorem extractProduct_catches_dom_errors_witness : extractProduct faultyPage = none :=
  extractProduct_catches_dom_errors faultyPage ("TypeError: cannot read innerText") (by rfl)

/-- C3: with tracking enabled, every analyze run inserts the new entry at
the front and truncates to the first 50 entries: starting from any
history within the cap the history never exceeds 50 entries, each update
is `new entry :: first 49 old entries` (so the entries dropped at the cap
are the oldest ones, at the back), and below the cap nothing is dropped. -/
theorem history_capped :
    (∀ (h0 es : List HistoryEntry), h0.length ≤ 50 → (runHistory es h0).length ≤ 50) ∧
    (∀ (e : HistoryEntry) (h : List HistoryEntry), updateHistory e h = e :: h.take 49) ∧
    (∀ (e : HistoryEntry) (h : List HistoryEntry), h.length ≤ 49 → updateHistory e h = e :: h) := by
  have hstep : ∀ (e : HistoryEntry) (h : List HistoryEntry), updateHistory e h = e :: h.take 49 := by
    intro e h
    show (e :: h).take (49 + 1) = e :: h.take 49
    exact List.take_succ_cons
  refine ⟨?_, hstep, ?_⟩
  · intro h0 es
    induction es generalizing h0 with
    | nil => intro hle; simpa [runHistory] using hle
    | cons e es ih =>
      intro _
      show (runHistory es (updateHistory e h0)).length ≤ 50
      apply ih
      rw [hstep]
      have : (h0.take 49).length ≤ 49 := List.length_take_le _ _
      simp only [List.length_cons]
      omega
  · intro e h hle
    rw [hstep, List.take_of_length_le hle]

/-- A concrete history entry. -/
def sampleEntry : HistoryEntry :=
  { title := "Widget", price := "19.99", image := "", url := "https://example.com/item",
    timestamp := 1700000000000 }

/-- Witness for C3: one tracked run starting from an empty history. -/
theorem history_capped_witness : (runHistory [sampleEntry] []).length ≤ 50 :=
  history_capped.1 [] [sampleEntry] (by decide)

lemma filter_filter_fused (p q : α → Bool) (l : List α) :
    (l.filter q).filter p = l.filter (fun a => q a && p a) := by
  induction l with
  | nil => rfl
  | cons a l ih => cases hq : q a <;> cases hp : p a <;> simp [List.filter_cons, hq, hp, ih]

/-- C4: suggestion rendering splits the text on newlines, drops blank
lines and keeps exactly the lines that start (after trimming) with
digits followed by a period or with a bullet glyph, or are longer than
10 characters; on `1. Try X\n2. Try Y` it yields exactly those two
lines, both matching the digit+period test. -/
theorem renderSuggestions_spec :
    (∀ text : String,
      renderSuggestions text = (jsSplitNewline text).filter suggestionKeepSpec) ∧
    renderSuggestions ("1. Try X\n2. Try Y") = ["1. Try X", "2. Try Y"] ∧
    startsNumDot ("1. Try X") = true ∧ startsNumDot ("2. Try Y") = true := by
  refine ⟨?_, by rfl, by rfl, by rfl⟩
  intro text
  unfold renderSuggestions
  rw [filter_filter_fused]
  rfl

/-- C6: when the non-interactive credential lookup yields no token,
`handleAnalyze` fails with the AuthRequired message and the list of
network requests issued is empty — no POST reaches the endpoint. -/
theorem handleAnalyze_authRequired (p : ProductRecord)
    (net : FetchRequest → FetchResponse) (lastError : Bool) (raw : Option String)
    (h : getTokenSilent lastError raw = none) :
    handleAnalyze (getTokenSilent lastError raw) p net = (Except.error authRequiredMessage, []) := by
  rw [h]
  rfl

/-- A concrete product for the suggestion-service claims. -/
def sampleProduct : ProductRecord :=
  { title := "Widget", price := "19.99", image := "", url := "https://example.com/item" }

/-- Witness for C6: a lookup that hit a runtime error yields no token,
and analysis fails with AuthRequired and zero requests. -/
theorem handleAnalyze_authRequired_witness :
    handleAnalyze (getTokenSilent true none) sampleProduct
        (fun _ => { status := 200, bodyText := "ok", json := { candidates := none } }) =
      (Except.error authRequiredMessage, []) :=
  handleAnalyze_authRequired sampleProduct
    (fun _ => { status := 200, bodyText := "ok", json := { candidates := none } })
    true none (by rfl)

lemma isPrefixOf_append_self (n post : List Char) : n.isPrefixOf (n ++ post) = true := by
  induction n with
  | nil => simp [List.isPrefixOf]
  | cons a n ih => simp [List.isPrefixOf, ih]

lemma containsSub_of_isPrefixOf (n l : List Char) (h : n.isPrefixOf l = true) :
    containsSub n l = true := by
  cases l with
  | nil =>
    cases n with
    | nil => rfl
    | cons a as => simp [List.isPrefixOf] at h
  | cons c cs => simp [containsSub, h]

lemma containsSub_append_middle (pre n post : List Char) :
    containsSub n (pre ++ (n ++ post)) = true := by
  induction pre with
  | nil => exact containsSub_of_isPrefixOf n (n ++ post) (isPrefixOf_append_self n post)
  | cons c pre ih => simp [containsSub, ih]

lemma networkErrorMessage_mentions (status : Nat) (body : String) :
    jsIncludes (networkErrorMessage status body) ("API error") = true ∧
    jsIncludes (networkErrorMessage status body) (toString status) = true ∧
    jsIncludes (networkErrorMessage status body) body = true := by
  unfold networkErrorMessage jsIncludes
  refine ⟨?_, ?_, ?_⟩
  · have hsplit : "API error ".data = "API error".data ++ (" ".data) := by rfl
    have h := containsSub_append_middle []
      ("API error".data) ((" ".data ++ (toString status).data) ++ ((": ").data ++ body.data))
    simpa [strData_append, hsplit, List.append_assoc] using h
  · have h := containsSub_append_middle ("API error ".data)
      ((toString status).data) ((": ").data ++ body.data)
    simpa [strData_append, List.append_assoc] using h
  · have h := containsSub_append_middle
      (("API error ".data ++ (toString status).data) ++ (": ").data) body.data []
    simpa [strData_append, List.append_assoc] using h

/-- C5: a non-2xx response from the generation endpoint makes
`handleAnalyze` fail with the network-error message, which carries the
HTTP status code and the response body text; on that failure the
catch block of the popup renders the demo fallback instead of crashing. -/
theorem handleAnalyze_network_error (tok : String) (p : ProductRecord)
    (net : FetchRequest → FetchResponse) (u : String) (resp : FetchResponse)
    (htok : tok ≠ "") (hresp : net (mkGeminiRequest tok p) = resp)
    (hbad : respOk resp = false) :
    handleAnalyze (some tok) p net =
      (Except.error (networkErrorMessage resp.status resp.bodyText), [mkGeminiRequest tok p]) ∧
    jsIncludes (networkErrorMessage resp.status resp.bodyText) ("API error") = true ∧
    jsIncludes (networkErrorMessage resp.status resp.bodyText) (toString resp.status) = true ∧
    jsIncludes (networkErrorMessage resp.status resp.bodyText) resp.bodyText = true ∧
    analyzeProductCatch (networkErrorMessage resp.status resp.bodyText) u =
      RenderOutcome.fallback (demoProduct u) getDemoSuggestions := by
  have hmsg := networkErrorMessage_mentions resp.status resp.bodyText
  have h1 : (tok == "") = false := beq_eq_false_iff_ne.mpr htok
  refine ⟨?_, hmsg.1, hmsg.2.1, hmsg.2.2, ?_⟩
  · simp [handleAnalyze, jsStrFalsy, h1, optD, hresp, hbad]
  · unfold analyzeProductCatch
    rw [hmsg.1]
    simp

/-- A network that always answers 404. -/
def badNet : FetchRequest → FetchResponse :=
  fun _ => { status := 404, bodyText := "not found", json := { candidates := none } }

/-- Witness for C5 at a concrete 404 response. -/
theorem handleAnalyze_network_error_witness :
    handleAnalyze (some ("tok123")) sampleProduct badNet =
      (Except.error (networkErrorMessage 404 ("not found")),
        [mkGeminiRequest ("tok123") sampleProduct]) ∧
    analyzeProductCatch (networkErrorMessage 404 ("not found")) ("https://example.com/item") =
      RenderOutcome.fallback (demoProduct ("https://example.com/item")) getDemoSuggestions :=
  have h := handleAnalyze_network_error ("tok123") sampleProduct badNet
    ("https://example.com/item")
    { status := 404, bodyText := "not found", json := { candidates := none } }
    (by decide) (by rfl) (by rfl)
  ⟨h.1, h.2.2.2.2⟩

/-- C7 counterexample: on the AuthRequired failure the orchestrator does
NOT degrade to the demo fallback — it renders an error message. -/
theorem analyzeProductCatch_authRequired_no_fallback :
    isFallback (analyzeProductCatch authRequiredMessage ("https://example.com/item")) = false ∧
    analyzeProductCatch authRequiredMessage ("https://example.com/item") =
      RenderOutcome.errorMsg ("Analysis failed: " ++ authRequiredMessage) := by
  exact ⟨by rfl, by rfl⟩

/-- C7 (amended): only failures whose message mentions the API key or an
API error — in particular every NetworkError — degrade to the labeled
demo fallback; the AuthRequired and MalformedResponse failures are
instead surfaced as an `Analysis failed:` error message. -/
theorem analyzeProductCatch_typed_failures :
    (∀ (status : Nat) (body u : String),
      analyzeProductCatch (networkErrorMessage status body) u =
        RenderOutcome.fallback (demoProduct u) getDemoSuggestions) ∧
    (∀ u : String, analyzeProductCatch authRequiredMessage u =
      RenderOutcome.errorMsg ("Analysis failed: " ++ authRequiredMessage)) ∧
    (∀ u : String, analyzeProductCatch malformedResponseMessage u =
      RenderOutcome.errorMsg ("Analysis failed: " ++ malformedResponseMessage)) := by
  refine ⟨?_, fun u => by rfl, fun u => by rfl⟩
  intro status body u
  unfold analyzeProductCatch
  rw [(networkErrorMessage_mentions status body).1]
  simp

/-- C10: a 2xx response whose first candidate text payload is the empty
string is rejected with the MalformedResponse message, both by the
background `handleAnalyze` and by `callGeminiAPI`; a non-empty
payload is returned whitespace-trimmed. -/
theorem geminiEmptyText_rejected :
    (∀ (tok : String) (p : ProductRecord) (net : FetchRequest → FetchResponse),
      tok ≠ "" → respOk (net (mkGeminiRequest tok p)) = true →
      extractCandidateText (net (mkGeminiRequest tok p)).json = some ("") →
      handleAnalyze (some tok) p net =
        (Except.error malformedResponseMessage, [mkGeminiRequest tok p])) ∧
    (∀ (tok : String) (p : ProductRecord) (net : FetchRequest → FetchResponse) (t : String),
      tok ≠ "" → respOk (net (mkGeminiRequest tok p)) = true →
      extractCandidateText (net (mkGeminiRequest tok p)).json = some t → t ≠ "" →
      handleAnalyze (some tok) p net = (Except.ok (jsTrim t), [mkGeminiRequest tok p])) ∧
    (∀ d : GeminiData, extractCandidateText d = some ("") →
      callGeminiAPIParse d = Except.error ("Unexpected API response—try a fresh key.")) ∧
    (∀ (d : GeminiData) (t : String), extractCandidateText d = some t → t ≠ "" →
      callGeminiAPIParse d = Except.ok (jsTrim t)) := by
  refine ⟨?_, ?_, ?_, ?_⟩
  · intro tok p net htok hok hempty
    have h1 : (tok == "") = false := beq_eq_false_iff_ne.mpr htok
    simp [handleAnalyze, jsStrFalsy, h1, optD, hok, hempty]
  · intro tok p net t htok hok htext ht
    have h1 : (tok == "") = false := beq_eq_false_iff_ne.mpr htok
    have h2 : (t == "") = false := beq_eq_false_iff_ne.mpr ht
    simp [handleAnalyze, jsStrFalsy, h1, optD, hok, htext, h2]
  · intro d h
    cases hc : d.candidates with
    | none => simp [extractCandidateText, hc] at h
    | some cs =>
      simp only [extractCandidateText, hc] at h
      simp [callGeminiAPIParse, hc, h]
  · intro d t h ht
    have h2 : (t == "") = false := beq_eq_false_iff_ne.mpr ht
    cases hc : d.candidates with
    | none => simp [extractCandidateText, hc] at h
    | some cs =>
      simp only [extractCandidateText, hc] at h
      simp [callGeminiAPIParse, hc, h, h2]

/-- A 200 response whose first candidate carries an empty text payload. -/
def emptyTextNet : FetchRequest → FetchResponse :=
  fun _ =>
    { status := 200, bodyText := "ok",
      json := { candidates := some [{ content := some { parts := [{ text := some ("") }] } }] } }

/-- Witness for C10: the empty candidate text is rejected. -/
theorem geminiEmptyText_rejected_witness :
    handleAnalyze (some ("tok123")) sampleProduct emptyTextNet =
      (Except.error malformedResponseMessage, [mkGeminiRequest ("tok123") sampleProduct]) :=
  geminiEmptyText_rejected.1 ("tok123") sampleProduct emptyTextNet (by decide) (by rfl) (by rfl)

/-- The shape of a match of `\$[\d,]+\.?\d{0,2}`: a dollar sign, a
non-empty run of digits/commas, then optionally a period followed by at
most two digits. -/
def currencyShapeData (m : List Char) : Prop :=
  ∃ run tail, m = '$' :: (run ++ tail) ∧ run ≠ [] ∧
    (∀ c ∈ run, isPriceChar c = true) ∧
    (tail = [] ∨ ∃ ds, tail = '.' :: ds ∧ ds.length ≤ 2 ∧ ∀ c ∈ ds, c.isDigit = true)

/-- The currency-pattern shape for a matched substring. -/
def CurrencyShape (m : String) : Prop :=
  currencyShapeData m.data

lemma appendShapeDot (tw rest2 : List Char) :
    tw ++ '.' :: rest2 =
      (tw ++ '.' :: ((rest2.takeWhile Char.isDigit).take 2)) ++
        ((rest2.takeWhile Char.isDigit).drop 2 ++ rest2.dropWhile Char.isDigit) := by
  have h1 : rest2.takeWhile Char.isDigit ++ rest2.dropWhile Char.isDigit = rest2 :=
    List.takeWhile_append_dropWhile _ _
  have h2 : (rest2.takeWhile Char.isDigit).take 2 ++ (rest2.takeWhile Char.isDigit).drop 2 =
      rest2.takeWhile Char.isDigit := List.take_append_drop _ _
  conv_lhs => rw [← h1, ← h2]
  simp only [List.append_assoc, List.cons_append]

lemma matchAt_some (l m : List Char) (h : matchAt l = some m) :
    (∃ post, l = m ++ post) ∧ currencyShapeData m := by
  cases l with
  | nil => cases h
  | cons c rest =>
    by_cases hc : c = '$'
    · subst hc
      simp only [matchAt, beq_self_eq_true, if_true] at h
      by_cases hrun : rest.takeWhile isPriceChar = []
      · rw [if_pos hrun] at h; cases h
      · rw [if_neg hrun] at h
        have hsplit : rest.takeWhile isPriceChar ++ rest.dropWhile isPriceChar = rest :=
          List.takeWhile_append_dropWhile _ _
        have hrunmem : ∀ c ∈ rest.takeWhile isPriceChar, isPriceChar c = true :=
          fun c hcm => List.mem_takeWhile_imp hcm
        cases hd : rest.dropWhile isPriceChar with
        | nil =>
          rw [hd] at h
          obtain rfl : ('$' :: rest.takeWhile isPriceChar) = m := Option.some_injective _ h
          rw [hd, List.append_nil] at hsplit
          refine ⟨⟨[], ?_⟩, ?_⟩
          · rw [List.append_nil, hsplit]
          · exact ⟨rest.takeWhile isPriceChar, [], by simp, hrun, hrunmem, Or.inl rfl⟩
        | cons c2 rest2 =>
          rw [hd] at h
          have hrest : rest = rest.takeWhile isPriceChar ++ c2 :: rest2 := by
            conv_lhs => rw [← hsplit]
            rw [hd]
          by_cases hc2 : c2 = '.'
          · subst hc2
            simp only [beq_self_eq_true, if_true] at h
            obtain rfl :
                ('$' :: (rest.takeWhile isPriceChar ++
                  '.' :: ((rest2.takeWhile Char.isDigit).take 2))) = m :=
              Option.some_injective _ h
            refine ⟨⟨(rest2.takeWhile Char.isDigit).drop 2 ++ rest2.dropWhile Char.isDigit,
              ?_⟩, ?_⟩
            · rw [List.cons_append]
              conv_lhs => rw [hrest]
              exact congrArg (List.cons '$') (appendShapeDot (rest.takeWhile isPriceChar) rest2)
            · refine ⟨rest.takeWhile isPriceChar,
                '.' :: ((rest2.takeWhile Char.isDigit).take 2), rfl, hrun, hrunmem, Or.inr ?_⟩
              refine ⟨(rest2.takeWhile Char.isDigit).take 2, rfl, List.length_take_le _ _, ?_⟩
              intro c hcm
              exact List.mem_takeWhile_imp (List.mem_of_mem_take hcm)
          · have hbeq : (c2 == '.') = false := beq_eq_false_iff_ne.mpr hc2
            simp only [hbeq, Bool.false_eq_true, if_false] at h
            obtain rfl : ('$' :: rest.takeWhile isPriceChar) = m := Option.some_injective _ h
            refine ⟨⟨c2 :: rest2, ?_⟩, ?_⟩
            · rw [List.cons_append]
              conv_lhs => rw [hrest]
            · exact ⟨rest.takeWhile isPriceChar, [], by simp, hrun, hrunmem, Or.inl rfl⟩
    · have hbeq : (c == '$') = false := beq_eq_false_iff_ne.mpr hc
      simp [matchAt, hbeq] at h

lemma scanCurrency_some (l m : List Char) (h : scanCurrency l = some m) :
    (∃ pre post, l = pre ++ (m ++ post)) ∧ currencyShapeData m := by
  induction l with
  | nil => cases h
  | cons c cs ih =>
    rw [scanCurrency] at h
    cases hm : matchAt (c :: cs) with
    | some m2 =>
      rw [hm] at h
      have heq : m2 = m := Option.some_injective _ h
      obtain ⟨⟨post, hpost⟩, hshape⟩ := matchAt_some (c :: cs) m2 hm
      rw [← heq]
      exact ⟨⟨[], post, by simpa using hpost⟩, hshape⟩
    | none =>
      rw [hm] at h
      obtain ⟨⟨pre, post, heq⟩, hshape⟩ := ih h
      exact ⟨⟨c :: pre, post, by simp [heq]⟩, hshape⟩

lemma findPrice_eq_head (nodes : List String) :
    findPrice nodes = ((nodes.filterMap matchCurrency).head?).getD "" := by
  induction nodes with
  | nil => rfl
  | cons n rest ih =>
    cases hm : matchCurrency n <;> simp [findPrice, List.filterMap_cons, hm, ih]

/-- C9: the price text-scan fallback walks the text nodes in order and
returns the leftmost currency-pattern match of the first matching node
wins across nodes; a returned match is a substring of its node and has
the currency shape (dollar sign, digits with optional comma separators,
optional period with at most two fraction digits); when no node
matches, the result is the empty string. -/
theorem findPrice_spec :
    (∀ nodes : List String,
      findPrice nodes = ((nodes.filterMap matchCurrency).head?).getD "") ∧
    (∀ (s m : String), matchCurrency s = some m →
      (∃ pre post, s.data = pre ++ (m.data ++ post)) ∧ CurrencyShape m) ∧
    (∀ nodes : List String, (∀ n ∈ nodes, matchCurrency n = none) → findPrice nodes = "") := by
  refine ⟨findPrice_eq_head, ?_, ?_⟩
  · intro s m h
    unfold matchCurrency at h
    cases hs : scanCurrency s.data with
    | none => rw [hs] at h; cases h
    | some md =>
      rw [hs] at h
      have heq : String.mk md = m := Option.some_injective _ h
      obtain ⟨⟨pre, post, hsub⟩, hshape⟩ := scanCurrency_some s.data md hs
      rw [← heq]
      exact ⟨⟨pre, post, hsub⟩, hshape⟩
  · intro nodes hnone
    rw [findPrice_eq_head]
    rw [List.filterMap_eq_nil_iff.mpr hnone]
    rfl

/-- Witness for C9: two nodes without a currency match give the empty
string. -/
theorem findPrice_spec_witness : findPrice ["no price here", "none at all"] = "" :=
  findPrice_spec.2.2 (["no price here", "none at all"]) (by decide)
